import Mathlib

/-!
Verification of kiwi's replicated write path: a shallow embedding of the
2PC participant (`internal/config/config.go`, replication server part),
the 2PC coordinator (`internal/replication/client.go`), the local engine
adapter (`internal/storage/leveldb.go`), and the replicated-store facade
(`ReplicatedStore`), together with theorems settling the frozen claims.

Modelling conventions:
* Go byte slices and JSON values are modelled as opaque `String`s, and
  `json.Marshal`/`json.Unmarshal` as the identity on those opaque values
  (serialization never fails in the model; no claim depends on a marshal
  failure).
* Go maps are modelled as association lists with first-match lookup;
  map insertion erases the old binding first, map deletion erases all
  bindings of the key, so lookup agrees with Go map semantics.
* Fallible Go functions returning `error` become `Except`/`Option`
  results; an error result carries no new state, mirroring the Go code
  paths that return before writing.
* The Go `uint64` sequence counter is modelled as `Nat` reduced modulo
  `2 ^ 64` exactly where the Go increment can overflow.
* Network nondeterminism (the order in which parallel prepare RPC results
  arrive on the channel, and each participant's response or transport
  failure) is a parameter of the coordinator model: `replicate2PC` takes
  the list of prepare outcomes in arrival order and the list of commit
  outcomes, and computes which participants are sent Commit/Abort and
  what the call returns.
-/

set_option autoImplicit false

/-- Wire operation kind. Modelled from the spec: the protobuf schema
(package `kiwi/proto`) is not among the given source files; the spec's wire
table fixes `operation: enum {PUT=0, DELETE=1}`. As in protobuf, the field
is an open integer, so unknown numeric kinds are representable on the wire. -/
abbrev OperationType := Nat

/-- `pb.OperationType_PUT` (wire value 0). -/
def OperationType.PUT : OperationType := 0

/-- `pb.OperationType_DELETE` (wire value 1). -/
def OperationType.DELETE : OperationType := 1

/-- Errors surfaced by the coordinator `Manager.replicate2PC`
(`internal/replication/client.go`): the three distinct error returns. -/
inductive ReplicateError where
  | prepareFailed (msg : String)
  | prepareRejected
  | partialCommit (msg : String)
deriving DecidableEq, Repr

/-- Errors surfaced by the storage layer and the replicated-store facade.
`invalidKey` is `storage.ErrInvalidKey`, `keyNotFound` is
`storage.ErrKeyNotFound`; the remaining constructors carry the facade's
`fmt.Errorf` messages or wrap a replication error. -/
inductive StoreErr where
  | invalidKey
  | keyNotFound
  | roleError (msg : String)
  | replicationFailed (e : ReplicateError)
  | localApplyFailed
deriving DecidableEq, Repr

/-- Go `err.Error()` on a storage error value. -/
def StoreErr.text : StoreErr → String
  | .invalidKey => "invalid key"
  | .keyNotFound => "key not found"
  | .roleError m => m
  | .replicationFailed _ => "replication failed"
  | .localApplyFailed => "local write failed after replication (inconsistency possible)"

/-- First-match association-list lookup: the model of Go map indexing. -/
def alookup {α : Type} (k : String) : List (String × α) → Option α
  | [] => none
  | p :: rest => if p.1 = k then some p.2 else alookup k rest

/-- Remove every binding of `k`: the model of Go `delete(m, k)`. -/
def aerase {α : Type} (k : String) (l : List (String × α)) : List (String × α) :=
  l.filter (fun p => p.1 ≠ k)

/-- Bind `k` to `v`, replacing any previous binding: the model of Go
`m[k] = v`. -/
def ainsert {α : Type} (k : String) (v : α) (l : List (String × α)) : List (String × α) :=
  (k, v) :: aerase k l

/-- `LevelDBStore` (`internal/storage/leveldb.go`): the underlying LevelDB
database modelled as a map from composite keys to opaque stored bytes. -/
structure LevelDBStore where
  db : List (String × String)
deriving DecidableEq, Repr

/-- `makeKey`: the `collection + ":" + key` composite encoding. -/
def makeKey (collection key : String) : String := collection ++ ":" ++ key

/-- `LevelDBStore.PutDirect`: raw write used by replication; rejects the
empty key, otherwise stores the bytes under the composite key. -/
def LevelDBStore.putDirect (s : LevelDBStore) (collection key value : String) :
    Except StoreErr LevelDBStore :=
  if key = "" then .error .invalidKey
  else .ok ⟨ainsert (makeKey collection key) value s.db⟩

/-- `LevelDBStore.DeleteDirect`: raw delete used by replication; rejects the
empty key; the underlying LevelDB delete succeeds even on an absent key. -/
def LevelDBStore.deleteDirect (s : LevelDBStore) (collection key : String) :
    Except StoreErr LevelDBStore :=
  if key = "" then .error .invalidKey
  else .ok ⟨aerase (makeKey collection key) s.db⟩

/-- `LevelDBStore.Put`: JSON-marshals the value (identity in the model) and
stores it; rejects the empty key first. -/
def LevelDBStore.put (s : LevelDBStore) (collection key value : String) :
    Except StoreErr LevelDBStore :=
  if key = "" then .error .invalidKey
  else .ok ⟨ainsert (makeKey collection key) value s.db⟩

/-- `LevelDBStore.Get`: rejects the empty key, then looks the composite key
up, mapping LevelDB's not-found to `ErrKeyNotFound`. -/
def LevelDBStore.get (s : LevelDBStore) (collection key : String) :
    Except StoreErr String :=
  if key = "" then .error .invalidKey
  else
    match alookup (makeKey collection key) s.db with
    | none => .error .keyNotFound
    | some v => .ok v

/-- `LevelDBStore.Delete`: rejects the empty key, checks existence (returning
`ErrKeyNotFound` on an absent key), then deletes. -/
def LevelDBStore.delete (s : LevelDBStore) (collection key : String) :
    Except StoreErr LevelDBStore :=
  if key = "" then .error .invalidKey
  else
    match alookup (makeKey collection key) s.db with
    | none => .error .keyNotFound
    | some _ => .ok ⟨aerase (makeKey collection key) s.db⟩

/-- `PendingTransaction`: a staged-but-uncommitted operation held by a
participant between prepare and commit/abort. -/
structure PendingTransaction where
  operation : OperationType
  collection : String
  key : String
  value : String
deriving DecidableEq, Repr

/-- `pb.PrepareRequest`: the phase-1 wire message. -/
structure PrepareRequest where
  transactionId : String
  operation : OperationType
  collection : String
  key : String
  value : String
  sequence : Nat
deriving DecidableEq, Repr

/-- The replication participant `Server` (gRPC server on every node).
The Go struct carries a `seq` field that no handler ever reads or writes;
it is kept here for fidelity. The `storage` field is the node's local
engine (`StorageBackend`). -/
structure Server where
  seq : Nat
  pending : List (String × PendingTransaction)
  storage : LevelDBStore
deriving DecidableEq, Repr

/-- `Server.Prepare` (phase 1 of 2PC): if the transaction id is already
staged, answer ready without restaging; otherwise stage the request's
operation and answer ready. The Go handler performs no validation of key,
operation kind, or sequence number before staging. -/
def Server.prepare (s : Server) (req : PrepareRequest) : Bool × Server :=
  match alookup req.transactionId s.pending with
  | some _ => (true, s)
  | none =>
    (true, { s with pending :=
      (req.transactionId,
        ⟨req.operation, req.collection, req.key, req.value⟩) :: s.pending })

/-- The apply step inside `Server.Commit`: a Go `switch` on the operation
kind with no default case, so an unknown kind leaves `err = nil` without
touching the engine. -/
def applyPending (st : LevelDBStore) (txn : PendingTransaction) :
    Except StoreErr LevelDBStore :=
  if txn.operation = OperationType.PUT then
    st.putDirect txn.collection txn.key txn.value
  else if txn.operation = OperationType.DELETE then
    st.deleteDirect txn.collection txn.key
  else .ok st

/-- `Server.Commit` (phase 2 of 2PC): absent id answers
`(false, "transaction not found")`; an engine failure leaves the entry
staged and answers failure with the engine's message; success applies the
operation, unstages the entry, and answers success. -/
def Server.commit (s : Server) (tid : String) : (Bool × String) × Server :=
  match alookup tid s.pending with
  | none => ((false, "transaction not found"), s)
  | some txn =>
    match applyPending s.storage txn with
    | .error e => ((false, e.text), s)
    | .ok st => ((true, ""), { s with pending := aerase tid s.pending, storage := st })

/-- `Server.Abort`: unstage unconditionally and answer success, also when
the id was absent. -/
def Server.abort (s : Server) (tid : String) : Bool × Server :=
  (true, { s with pending := aerase tid s.pending })

/-- Outcome of one prepare RPC as seen at the coordinator's call site
(`Client.Prepare`): either a transport-level error, or the participant's
`ready` answer. -/
inductive PrepOutcome where
  | rpcError (msg : String)
  | answered (ready : Bool)
deriving DecidableEq, Repr

/-- Outcome of one commit RPC as seen at the coordinator's call site
(`Client.Commit` folds both a transport error and a `success=false` reply
into a non-nil Go error). -/
inductive CommitOutcome where
  | ok
  | failed (msg : String)
deriving DecidableEq, Repr

/-- Accumulator of the coordinator's prepare-collection loop
(`replicate2PC`, phase 1): the `allReady` flag, the clients that answered
ready (`preparedClients`), and the transport errors (`prepareErrors`). -/
structure TallyResult where
  allReady : Bool
  prepared : List String
  errors : List String
deriving DecidableEq, Repr

/-- One iteration of the prepare-collection loop, on the next result
received from the channel. -/
def tallyStep (acc : TallyResult) (r : String × PrepOutcome) : TallyResult :=
  match r.2 with
  | .rpcError e => { acc with allReady := false, errors := acc.errors ++ [e] }
  | .answered false => { acc with allReady := false }
  | .answered true => { acc with prepared := acc.prepared ++ [r.1] }

/-- The prepare-collection loop over the results in channel-arrival order. -/
def tallyPrepare (results : List (String × PrepOutcome)) : TallyResult :=
  results.foldl tallyStep ⟨true, [], []⟩

/-- What one `replicate2PC` round does: which participants are sent Commit,
which are sent Abort, and what the call returns (`none` = nil error). -/
structure RoundActions where
  commitSent : List String
  abortSent : List String
  result : Option ReplicateError
deriving DecidableEq, Repr

/-- `Manager.replicate2PC` (`internal/replication/client.go`): given the
configured participant addresses, the prepare outcomes in arrival order,
and the commit outcomes, compute the round's actions. With no participants
the round is a no-op success. If any prepare errored or answered not-ready,
no Commit is sent, Abort goes to exactly the clients collected in
`preparedClients`, and the call returns the first transport error if there
was one, else the rejection error. Otherwise Commit goes to every client;
any commit failure yields the partial-commit error. -/
def replicate2PC (clients : List String)
    (prepResults : List (String × PrepOutcome))
    (commitResults : List CommitOutcome) : RoundActions :=
  if clients = [] then ⟨[], [], none⟩
  else if (tallyPrepare prepResults).allReady then
    match commitResults.filterMap (fun r =>
        match r with
        | .ok => none
        | .failed e => some e) with
    | [] => ⟨clients, [], none⟩
    | e :: _ => ⟨clients, [], some (.partialCommit e)⟩
  else
    ⟨[], (tallyPrepare prepResults).prepared,
      some (match (tallyPrepare prepResults).errors with
        | e :: _ => ReplicateError.prepareFailed e
        | [] => ReplicateError.prepareRejected)⟩

/-- The width of Go's `uint64`, the type of the coordinator's sequence
counter. -/
def U64 : Nat := 2 ^ 64

/-- The coordinator `Manager`: participant addresses, the mutex-protected
`uint64` sequence counter, and the atomic transaction-id counter. -/
structure Manager where
  clients : List String
  seq : Nat
  txnID : Nat
deriving DecidableEq, Repr

/-- `Manager.nextSeq`: increment the `uint64` counter under the mutex and
hand out the new value. The Go `m.seq++` wraps modulo `2 ^ 64`. -/
def Manager.nextSeq (m : Manager) : Nat × Manager :=
  let s := (m.seq + 1) % U64
  (s, { m with seq := s })

/-- The manager state after `n` successive `nextSeq` calls (the mutex
serializes them). Since `nextSeq` hands out the freshly incremented
counter, the value handed out by call `k ≥ 1` is `(managerAfter m k).seq`. -/
def managerAfter (m : Manager) : Nat → Manager
  | 0 => m
  | n + 1 => ((managerAfter m n).nextSeq).2

/-- `config.Role` (extended config package): Go `type Role string`, an
open string type. The two constants the package defines are `RoleMaster`
and `RoleSlave`, and `config.Load` forces every loaded configuration onto
one of them, but the type itself admits any string. -/
abbrev Role := String

/-- `config.RoleMaster` (`"master"`). -/
def RoleMaster : Role := "master"

/-- `config.RoleSlave` (`"slave"`). -/
def RoleSlave : Role := "slave"

/-- The extended `config.Config`: application settings plus the
replication settings. Only the role is read by the operations embedded
here (the `ReplicatedStore` write gate); the remaining fields are carried
for fidelity. The Go field `Role` is spelled `role` because a Lean field
cannot share its type's name. -/
structure Config where
  Port : String
  DatabasePath : String
  AppName : String
  Version : String
  GitCommit : String
  BuildTime : String
  NodeID : String
  role : Role
  GRPCPort : String
  MasterAddr : String
  SlaveAddrs : List String
deriving DecidableEq, Repr

/-- `Config.IsMaster`: `c.Role == RoleMaster`. -/
def Config.IsMaster (c : Config) : Bool := c.role == RoleMaster

/-- `Config.IsSlave`: `c.Role == RoleSlave`. -/
def Config.IsSlave (c : Config) : Bool := c.role == RoleSlave

/-- A concrete master-role configuration (the `config.Load` defaults with
`ROLE=master` and one replica address), for the concrete instances in the
theorems below. -/
def cfgMaster : Config :=
  ⟨"3300", "./data", "kiwi", "dev", "unknown", "unknown", "node-1", RoleMaster,
    "50051", "", ["slave1:50051"]⟩

/-- A concrete slave-role configuration (the `config.Load` defaults with
`ROLE=slave`), for the concrete instances in the theorems below. -/
def cfgSlave : Config :=
  ⟨"3300", "./data", "kiwi", "dev", "unknown", "unknown", "node-2", RoleSlave,
    "50051", "master:50051", []⟩

/-- `ReplicatedStore`: the facade the HTTP layer calls. `hasManager` models
`s.manager != nil` and `slaveCount` models `s.manager.SlaveCount()`. -/
structure ReplicatedStore where
  store : LevelDBStore
  cfg : Config
  hasManager : Bool
  slaveCount : Nat
deriving DecidableEq, Repr

/-- `ReplicatedStore.Put`: reject on a replica; with a manager and at least
one participant, consult the 2PC outcome `repl` (the value
`Manager.ReplicatePut` returned, `none` = nil error) and on a replication
error return it without a local write; otherwise (and in the
no-participant degenerate mode) apply locally, wrapping a local failure as
the inconsistency-possible error. The pair returned is (error, resulting
local engine); an error leaves the engine as it was. -/
def ReplicatedStore.put (rs : ReplicatedStore) (repl : Option ReplicateError)
    (collection key value : String) : Option StoreErr × LevelDBStore :=
  if rs.cfg.IsSlave then
    (some (.roleError "writes not allowed on slave nodes, send request to master"), rs.store)
  else
    let localWrite :=
      match rs.store.put collection key value with
      | .error _ => (some StoreErr.localApplyFailed, rs.store)
      | .ok st => (none, st)
    if rs.hasManager && decide (0 < rs.slaveCount) then
      match repl with
      | some e => (some (.replicationFailed e), rs.store)
      | none => localWrite
    else localWrite

/-- `ReplicatedStore.Delete`: reject on a replica; verify the key exists
locally (returning the storage error, in particular `ErrKeyNotFound`,
before any replication); then as in `put` but with the delete operation. -/
def ReplicatedStore.delete (rs : ReplicatedStore) (repl : Option ReplicateError)
    (collection key : String) : Option StoreErr × LevelDBStore :=
  if rs.cfg.IsSlave then
    (some (.roleError "deletes not allowed on slave nodes, send request to master"), rs.store)
  else
    match rs.store.get collection key with
    | .error e => (some e, rs.store)
    | .ok _ =>
      let localDelete :=
        match rs.store.delete collection key with
        | .error _ => (some StoreErr.localApplyFailed, rs.store)
        | .ok st => (none, st)
      if rs.hasManager && decide (0 < rs.slaveCount) then
        match repl with
        | some e => (some (.replicationFailed e), rs.store)
        | none => localDelete
      else localDelete

/-! ## Helper lemmas about the map embedding and the coordinator fold -/

theorem alookup_none_countP {α : Type} (k : String) (l : List (String × α))
    (h : alookup k l = none) :
    l.countP (fun q => decide (q.1 = k)) = 0 := by
  induction l with
  | nil => rfl
  | cons p rest ih =>
    by_cases hp : p.1 = k
    · simp [alookup, hp] at h
    · simp only [alookup, hp, if_false] at h
      simp [List.countP_cons, hp, ih h]

theorem alookup_some_countP_pos {α : Type} (k : String) (l : List (String × α))
    (v : α) (h : alookup k l = some v) :
    0 < l.countP (fun q => decide (q.1 = k)) := by
  induction l with
  | nil => simp [alookup] at h
  | cons p rest ih =>
    by_cases hp : p.1 = k
    · simp [List.countP_cons, hp]
    · simp only [alookup, hp, if_false] at h
      simp only [List.countP_cons, hp]
      have := ih h
      omega

theorem alookup_aerase {α : Type} (k : String) (l : List (String × α)) :
    alookup k (aerase k l) = none := by
  induction l with
  | nil => rfl
  | cons p rest ih =>
    by_cases hp : p.1 = k
    · simpa [aerase, List.filter_cons, hp] using ih
    · simpa [aerase, List.filter_cons, hp, alookup] using ih

theorem tally_foldl_allReady (l : List (String × PrepOutcome)) (acc : TallyResult) :
    (l.foldl tallyStep acc).allReady =
      (acc.allReady && l.all (fun r => decide (r.2 = PrepOutcome.answered true))) := by
  induction l generalizing acc with
  | nil => simp
  | cons r rest ih =>
    obtain ⟨a, o⟩ := r
    cases o with
    | rpcError e => simp [tallyStep, ih]
    | answered b => cases b <;> simp [tallyStep, ih]

theorem tally_foldl_prepared (l : List (String × PrepOutcome)) (acc : TallyResult) :
    (l.foldl tallyStep acc).prepared =
      acc.prepared ++
        (l.filter (fun r => decide (r.2 = PrepOutcome.answered true))).map Prod.fst := by
  induction l generalizing acc with
  | nil => simp
  | cons r rest ih =>
    obtain ⟨a, o⟩ := r
    cases o with
    | rpcError e => simp [tallyStep, ih, List.filter_cons]
    | answered b => cases b <;> simp [tallyStep, ih, List.filter_cons]

theorem U64_pos : 0 < U64 :=
  pow_pos (by norm_num) 64

theorem managerAfter_seq (c : List String) (t : Nat) (n : Nat) :
    (managerAfter ⟨c, 0, t⟩ n).seq = n % U64 := by
  induction n with
  | zero => simp [managerAfter]
  | succ n ih =>
    simp only [managerAfter, Manager.nextSeq, ih]
    conv_rhs => rw [Nat.add_mod]
    rw [Nat.mod_eq_of_lt (show (1 : Nat) < U64 by norm_num [U64])]

/-! ## Claims about the replication participant and the local engine -/

/-- C1 counterexample: the claim demands ready=false and no staging for a
Prepare with an empty key and a non-increasing sequence number, but on a
fresh participant `Server.Prepare` with key `""` and sequence `0` answers
ready=true and stages the operation. -/
theorem prepare_no_validation_cex :
    (Server.prepare ⟨0, [], ⟨[]⟩⟩
        ⟨"txn-1-1", OperationType.PUT, "default", "", "v", 0⟩).1 = true ∧
    alookup "txn-1-1"
        (Server.prepare ⟨0, [], ⟨[]⟩⟩
          ⟨"txn-1-1", OperationType.PUT, "default", "", "v", 0⟩).2.pending =
      some ⟨OperationType.PUT, "default", "", "v"⟩ := by
  decide

/-- C1 (amended): for every Prepare whose transaction id is not already
staged, the participant stages the operation into `pending` and returns
ready=true unconditionally — no validation of the key, the operation kind,
or the sequence number is performed, and the local engine is untouched. -/
theorem prepare_stages_unconditionally (s : Server) (req : PrepareRequest)
    (h : alookup req.transactionId s.pending = none) :
    (s.prepare req).1 = true ∧
    (s.prepare req).2.pending =
      (req.transactionId,
        ⟨req.operation, req.collection, req.key, req.value⟩) :: s.pending ∧
    (s.prepare req).2.storage = s.storage := by
  simp [Server.prepare, h]

/-- Witness for the amended C1 at a concrete input that violates all three
of the claim's validation conditions (empty key, unknown kind 5, sequence
0): it is still staged with ready=true. -/
theorem prepare_stages_unconditionally_witness :
    alookup "t" ([] : List (String × PendingTransaction)) = none ∧
    ((Server.prepare ⟨0, [], ⟨[]⟩⟩ ⟨"t", 5, "c", "", "v", 0⟩).1 = true ∧
      (Server.prepare ⟨0, [], ⟨[]⟩⟩ ⟨"t", 5, "c", "", "v", 0⟩).2.pending =
        ("t", ⟨5, "c", "", "v"⟩) :: [] ∧
      (Server.prepare ⟨0, [], ⟨[]⟩⟩ ⟨"t", 5, "c", "", "v", 0⟩).2.storage = ⟨[]⟩) :=
  ⟨by decide, prepare_stages_unconditionally ⟨0, [], ⟨[]⟩⟩ ⟨"t", 5, "c", "", "v", 0⟩ (by decide)⟩

/-- C2: Prepare is idempotent. From any participant state whose pending map
binds the request's transaction id at most once (the Go map invariant),
delivering the same Prepare twice answers ready=true both times, the second
delivery leaves the state exactly as after the first, and the pending map
then holds exactly one staged entry for that id. -/
theorem prepare_idempotent (s : Server) (req : PrepareRequest)
    (h : s.pending.countP (fun q => decide (q.1 = req.transactionId)) ≤ 1) :
    (s.prepare req).1 = true ∧
    ((s.prepare req).2.prepare req).1 = true ∧
    ((s.prepare req).2.prepare req).2 = (s.prepare req).2 ∧
    (s.prepare req).2.pending.countP (fun q => decide (q.1 = req.transactionId)) = 1 := by
  cases hl : alookup req.transactionId s.pending with
  | some v =>
    have hpos := alookup_some_countP_pos _ _ _ hl
    have hp : s.prepare req = (true, s) := by simp [Server.prepare, hl]
    rw [hp]
    refine ⟨rfl, by rw [hp], by rw [hp], ?_⟩
    show s.pending.countP (fun q => decide (q.1 = req.transactionId)) = 1
    omega
  | none =>
    have h0 := alookup_none_countP _ _ hl
    simp only [Server.prepare, hl]
    simp [alookup, List.countP_cons, h0]

/-- Witness for C2: a fresh participant, then the same Prepare twice. -/
theorem prepare_idempotent_witness :
    ([] : List (String × PendingTransaction)).countP (fun q => decide (q.1 = "t")) ≤ 1 ∧
    ((Server.prepare ⟨0, [], ⟨[]⟩⟩ ⟨"t", 0, "c", "k", "v", 1⟩).1 = true ∧
      ((Server.prepare ⟨0, [], ⟨[]⟩⟩ ⟨"t", 0, "c", "k", "v", 1⟩).2.prepare
          ⟨"t", 0, "c", "k", "v", 1⟩).1 = true ∧
      ((Server.prepare ⟨0, [], ⟨[]⟩⟩ ⟨"t", 0, "c", "k", "v", 1⟩).2.prepare
          ⟨"t", 0, "c", "k", "v", 1⟩).2 =
        (Server.prepare ⟨0, [], ⟨[]⟩⟩ ⟨"t", 0, "c", "k", "v", 1⟩).2 ∧
      (Server.prepare ⟨0, [], ⟨[]⟩⟩
          ⟨"t", 0, "c", "k", "v", 1⟩).2.pending.countP
        (fun q => decide (q.1 = "t")) = 1) :=
  ⟨by decide, prepare_idempotent ⟨0, [], ⟨[]⟩⟩ ⟨"t", 0, "c", "k", "v", 1⟩ (by decide)⟩

/-- C9: a staged entry is never altered by a later Prepare: if the request's
transaction id is already staged with entry `e`, the participant answers
ready=true and its whole state — in particular the entry `e` — is
unchanged, whatever operation, key, or value the new request carries. -/
theorem prepare_preserves_staged_entry (s : Server) (req : PrepareRequest)
    (e : PendingTransaction) (h : alookup req.transactionId s.pending = some e) :
    (s.prepare req).1 = true ∧
    (s.prepare req).2 = s ∧
    alookup req.transactionId (s.prepare req).2.pending = some e := by
  simp [Server.prepare, h]

/-- Witness for C9: a redelivered Prepare carrying a different operation,
collection, key, and value than the staged entry. -/
theorem prepare_preserves_staged_entry_witness :
    alookup "t" [("t", (⟨OperationType.PUT, "c", "k", "v1"⟩ : PendingTransaction))] =
      some ⟨OperationType.PUT, "c", "k", "v1"⟩ ∧
    ((Server.prepare ⟨0, [("t", ⟨OperationType.PUT, "c", "k", "v1"⟩)], ⟨[]⟩⟩
        ⟨"t", OperationType.DELETE, "c2", "k2", "v2", 7⟩).1 = true ∧
      (Server.prepare ⟨0, [("t", ⟨OperationType.PUT, "c", "k", "v1"⟩)], ⟨[]⟩⟩
        ⟨"t", OperationType.DELETE, "c2", "k2", "v2", 7⟩).2 =
        ⟨0, [("t", ⟨OperationType.PUT, "c", "k", "v1"⟩)], ⟨[]⟩⟩ ∧
      alookup "t"
        (Server.prepare ⟨0, [("t", ⟨OperationType.PUT, "c", "k", "v1"⟩)], ⟨[]⟩⟩
          ⟨"t", OperationType.DELETE, "c2", "k2", "v2", 7⟩).2.pending =
        some ⟨OperationType.PUT, "c", "k", "v1"⟩) :=
  ⟨by decide,
    prepare_preserves_staged_entry
      ⟨0, [("t", ⟨OperationType.PUT, "c", "k", "v1"⟩)], ⟨[]⟩⟩
      ⟨"t", OperationType.DELETE, "c2", "k2", "v2", 7⟩
      ⟨OperationType.PUT, "c", "k", "v1"⟩ (by decide)⟩

/-- C7: Commit at a participant. An absent transaction id answers
`(success=false, "transaction not found")` with the state unchanged; a
staged id whose engine apply fails answers success=false with the engine's
message and the whole state — the staged entry included — unchanged; a
staged id whose apply succeeds answers success=true, installs the new
engine state, and removes the entry from pending. -/
theorem commit_cases (s : Server) (tid : String) :
    (alookup tid s.pending = none →
      s.commit tid = ((false, "transaction not found"), s)) ∧
    (∀ txn e, alookup tid s.pending = some txn →
      applyPending s.storage txn = Except.error e →
        s.commit tid = ((false, e.text), s)) ∧
    (∀ txn st, alookup tid s.pending = some txn →
      applyPending s.storage txn = Except.ok st →
        (s.commit tid).1.1 = true ∧
        (s.commit tid).2.storage = st ∧
        alookup tid (s.commit tid).2.pending = none) := by
  refine ⟨?_, ?_, ?_⟩
  · intro h
    simp [Server.commit, h]
  · intro txn e h ha
    simp [Server.commit, h, ha]
  · intro txn st h ha
    simp [Server.commit, h, ha, alookup_aerase]

/-- Witness for C7 at a participant holding one staged PUT, instantiating
all three commit cases at that concrete state. -/
theorem commit_cases_witness :
    (alookup "t1" [("t1", (⟨OperationType.PUT, "c", "k", "v"⟩ : PendingTransaction))] = none →
      Server.commit ⟨0, [("t1", ⟨OperationType.PUT, "c", "k", "v"⟩)], ⟨[]⟩⟩ "t1" =
        ((false, "transaction not found"), ⟨0, [("t1", ⟨OperationType.PUT, "c", "k", "v"⟩)], ⟨[]⟩⟩)) ∧
    (∀ txn e, alookup "t1" [("t1", (⟨OperationType.PUT, "c", "k", "v"⟩ : PendingTransaction))] = some txn →
      applyPending ⟨[]⟩ txn = Except.error e →
        Server.commit ⟨0, [("t1", ⟨OperationType.PUT, "c", "k", "v"⟩)], ⟨[]⟩⟩ "t1" =
          ((false, e.text), ⟨0, [("t1", ⟨OperationType.PUT, "c", "k", "v"⟩)], ⟨[]⟩⟩)) ∧
    (∀ txn st, alookup "t1" [("t1", (⟨OperationType.PUT, "c", "k", "v"⟩ : PendingTransaction))] = some txn →
      applyPending ⟨[]⟩ txn = Except.ok st →
        (Server.commit ⟨0, [("t1", ⟨OperationType.PUT, "c", "k", "v"⟩)], ⟨[]⟩⟩ "t1").1.1 = true ∧
        (Server.commit ⟨0, [("t1", ⟨OperationType.PUT, "c", "k", "v"⟩)], ⟨[]⟩⟩ "t1").2.storage = st ∧
        alookup "t1"
          (Server.commit ⟨0, [("t1", ⟨OperationType.PUT, "c", "k", "v"⟩)], ⟨[]⟩⟩ "t1").2.pending = none) :=
  commit_cases ⟨0, [("t1", ⟨OperationType.PUT, "c", "k", "v"⟩)], ⟨[]⟩⟩ "t1"

/-- C10: every local-engine operation called with an empty key — `PutDirect`,
`DeleteDirect`, `Put`, `Get`, `Delete` — returns `ErrInvalidKey` without
touching the database (the error result carries no new state); in
particular `Get(collection, "")` returns InvalidKey, not NotFound, even
though the key is absent. -/
theorem empty_key_invalid (st : LevelDBStore) (collection value : String) :
    st.putDirect collection "" value = Except.error StoreErr.invalidKey ∧
    st.deleteDirect collection "" = Except.error StoreErr.invalidKey ∧
    st.put collection "" value = Except.error StoreErr.invalidKey ∧
    st.get collection "" = Except.error StoreErr.invalidKey ∧
    st.delete collection "" = Except.error StoreErr.invalidKey ∧
    st.get collection "" ≠ Except.error StoreErr.keyNotFound := by
  simp [LevelDBStore.putDirect, LevelDBStore.deleteDirect, LevelDBStore.put,
    LevelDBStore.get, LevelDBStore.delete]

/-! ## Claims about the coordinator and the replicated-store facade -/

/-- C3: whenever at least one prepare outcome is a transport error or a
not-ready answer, the round sends Commit to nobody, sends Abort to exactly
the participants whose prepare answered ready, and returns an error — the
first transport error if one occurred, the rejection error otherwise. The
hypothesis ties the arrival-ordered outcome list to the configured
participants (one outcome per participant, in some arrival order). -/
theorem replicate2PC_prepare_failure_aborts
    (clients : List String) (prepResults : List (String × PrepOutcome))
    (commitResults : List CommitOutcome)
    (hcover : List.Perm (prepResults.map Prod.fst) clients)
    (hbad : ∃ r ∈ prepResults, r.2 ≠ PrepOutcome.answered true) :
    (replicate2PC clients prepResults commitResults).commitSent = [] ∧
    (∀ a, a ∈ (replicate2PC clients prepResults commitResults).abortSent ↔
      (a, PrepOutcome.answered true) ∈ prepResults) ∧
    ((replicate2PC clients prepResults commitResults).result =
        some ReplicateError.prepareRejected ∨
      ∃ m, (replicate2PC clients prepResults commitResults).result =
        some (ReplicateError.prepareFailed m)) := by
  obtain ⟨r, hr, hrne⟩ := hbad
  have hprep_ne : prepResults ≠ [] := by
    intro h
    rw [h] at hr
    exact absurd hr (List.not_mem_nil r)
  have hclients_ne : clients ≠ [] := by
    intro h
    have hlen := hcover.length_eq
    rw [h] at hlen
    simp only [List.length_map, List.length_nil, List.length_eq_zero] at hlen
    exact hprep_ne hlen
  have hall : (tallyPrepare prepResults).allReady = false := by
    unfold tallyPrepare
    rw [tally_foldl_allReady]
    simp only [Bool.true_and]
    cases hv : prepResults.all (fun q => decide (q.2 = PrepOutcome.answered true)) with
    | false => rfl
    | true =>
      exfalso
      rw [List.all_eq_true] at hv
      exact hrne (by simpa using hv r hr)
  unfold replicate2PC
  rw [if_neg hclients_ne, if_neg (by simp [hall])]
  refine ⟨rfl, ?_, ?_⟩
  · intro a
    show a ∈ (tallyPrepare prepResults).prepared ↔ _
    unfold tallyPrepare
    rw [tally_foldl_prepared]
    simp only [List.nil_append]
    constructor
    · intro ha
      obtain ⟨q, hqf, hqa⟩ := List.mem_map.mp ha
      obtain ⟨hqmem, hqp⟩ := List.mem_filter.mp hqf
      have hq2 : q.2 = PrepOutcome.answered true := by simpa using hqp
      have hq : q = (a, PrepOutcome.answered true) := by
        obtain ⟨q1, q2⟩ := q
        simp only at hqa hq2
        rw [hqa, hq2]
      rw [← hq]
      exact hqmem
    · intro ha
      exact List.mem_map.mpr ⟨(a, PrepOutcome.answered true),
        List.mem_filter.mpr ⟨ha, by simp⟩, rfl⟩
  · cases herr : (tallyPrepare prepResults).errors with
    | nil =>
      left
      simp [herr]
    | cons e es =>
      right
      exact ⟨e, by simp [herr]⟩

/-- Witness for C3: two participants, one answering ready and one refusing;
the refuser gets no abort, the ready one does, commit is sent to nobody. -/
theorem replicate2PC_prepare_failure_aborts_witness :
    List.Perm ([("n1", PrepOutcome.answered true), ("n2", PrepOutcome.answered false)].map
      Prod.fst) ["n1", "n2"] ∧
    ((replicate2PC ["n1", "n2"]
        [("n1", PrepOutcome.answered true), ("n2", PrepOutcome.answered false)]
        []).commitSent = [] ∧
      (∀ a, a ∈ (replicate2PC ["n1", "n2"]
          [("n1", PrepOutcome.answered true), ("n2", PrepOutcome.answered false)]
          []).abortSent ↔
        (a, PrepOutcome.answered true) ∈
          [("n1", PrepOutcome.answered true), ("n2", PrepOutcome.answered false)]) ∧
      ((replicate2PC ["n1", "n2"]
          [("n1", PrepOutcome.answered true), ("n2", PrepOutcome.answered false)]
          []).result = some ReplicateError.prepareRejected ∨
        ∃ m, (replicate2PC ["n1", "n2"]
          [("n1", PrepOutcome.answered true), ("n2", PrepOutcome.answered false)]
          []).result = some (ReplicateError.prepareFailed m))) :=
  ⟨by decide,
    replicate2PC_prepare_failure_aborts ["n1", "n2"]
      [("n1", PrepOutcome.answered true), ("n2", PrepOutcome.answered false)] []
      (by decide) (by decide)⟩

/-- C4: if every participant prepared but some commit failed, the round
returns the partial-commit error; the facade's `Put` and `Delete` given
that outcome return an error and leave the master's local engine
untouched; and for any replication error at all the master does not apply
locally, on either write path. -/
theorem commit_failure_no_local_apply
    (clients : List String) (prepResults : List (String × PrepOutcome))
    (commitResults : List CommitOutcome) (rs : ReplicatedStore)
    (collection key value : String)
    (hrole : rs.cfg.role = RoleMaster)
    (hmgr : rs.hasManager = true)
    (hcount : 0 < rs.slaveCount)
    (hne : clients ≠ [])
    (hready : ∀ r ∈ prepResults, r.2 = PrepOutcome.answered true)
    (hfail : ∃ r ∈ commitResults, r ≠ CommitOutcome.ok) :
    (∃ m, (replicate2PC clients prepResults commitResults).result =
      some (ReplicateError.partialCommit m)) ∧
    ((rs.put (replicate2PC clients prepResults commitResults).result
        collection key value).1.isSome ∧
      (rs.put (replicate2PC clients prepResults commitResults).result
        collection key value).2 = rs.store) ∧
    ((rs.delete (replicate2PC clients prepResults commitResults).result
        collection key).1.isSome ∧
      (rs.delete (replicate2PC clients prepResults commitResults).result
        collection key).2 = rs.store) ∧
    (∀ e, (rs.put (some e) collection key value).2 = rs.store ∧
      (rs.delete (some e) collection key).2 = rs.store) := by
  have hslave : rs.cfg.IsSlave = false := by
    simp [Config.IsSlave, hrole, RoleMaster, RoleSlave]
  have hall : (tallyPrepare prepResults).allReady = true := by
    unfold tallyPrepare
    rw [tally_foldl_allReady]
    simp only [Bool.true_and]
    rw [List.all_eq_true]
    intro q hq
    simpa using hready q hq
  obtain ⟨r, hr, hrne⟩ := hfail
  cases r with
  | ok => exact absurd rfl hrne
  | failed m =>
    have hmem : m ∈ commitResults.filterMap (fun r =>
        match r with
        | .ok => none
        | .failed e => some e) := by
      rw [List.mem_filterMap]
      exact ⟨CommitOutcome.failed m, hr, rfl⟩
    cases hcf : commitResults.filterMap (fun r =>
        match r with
        | .ok => none
        | .failed e => some e) with
    | nil =>
      rw [hcf] at hmem
      exact absurd hmem (List.not_mem_nil m)
    | cons e es =>
      have hrep : replicate2PC clients prepResults commitResults =
          ⟨clients, [], some (.partialCommit e)⟩ := by
        unfold replicate2PC
        rw [if_neg hne, if_pos hall, hcf]
      rw [hrep]
      refine ⟨⟨e, rfl⟩, ⟨?_, ?_⟩, ⟨?_, ?_⟩, ?_⟩
      · simp [ReplicatedStore.put, hslave, hmgr, hcount]
      · simp [ReplicatedStore.put, hslave, hmgr, hcount]
      · cases hget : rs.store.get collection key with
        | error e0 => simp [ReplicatedStore.delete, hslave, hget]
        | ok v => simp [ReplicatedStore.delete, hslave, hget, hmgr, hcount]
      · cases hget : rs.store.get collection key with
        | error e0 => simp [ReplicatedStore.delete, hslave, hget]
        | ok v => simp [ReplicatedStore.delete, hslave, hget, hmgr, hcount]
      · intro e'
        refine ⟨?_, ?_⟩
        · simp [ReplicatedStore.put, hslave, hmgr, hcount]
        · cases hget : rs.store.get collection key with
          | error e0 => simp [ReplicatedStore.delete, hslave, hget]
          | ok v => simp [ReplicatedStore.delete, hslave, hget, hmgr, hcount]

/-- Witness for C4: one participant, prepare ready, commit failed; the
facade's put and delete both error and the engine is unchanged. -/
theorem commit_failure_no_local_apply_witness :
    ((⟨⟨[]⟩, cfgMaster, true, 1⟩ : ReplicatedStore).cfg.role = RoleMaster ∧
      (⟨⟨[]⟩, cfgMaster, true, 1⟩ : ReplicatedStore).hasManager = true ∧
      0 < (⟨⟨[]⟩, cfgMaster, true, 1⟩ : ReplicatedStore).slaveCount ∧
      ["n1"] ≠ ([] : List String) ∧
      (∀ r ∈ [("n1", PrepOutcome.answered true)], r.2 = PrepOutcome.answered true) ∧
      (∃ r ∈ [CommitOutcome.failed "engine down"], r ≠ CommitOutcome.ok)) ∧
    ((∃ m, (replicate2PC ["n1"] [("n1", PrepOutcome.answered true)]
        [CommitOutcome.failed "engine down"]).result =
      some (ReplicateError.partialCommit m)) ∧
    ((ReplicatedStore.put ⟨⟨[]⟩, cfgMaster, true, 1⟩
        (replicate2PC ["n1"] [("n1", PrepOutcome.answered true)]
          [CommitOutcome.failed "engine down"]).result
        "c" "k" "v").1.isSome ∧
      (ReplicatedStore.put ⟨⟨[]⟩, cfgMaster, true, 1⟩
        (replicate2PC ["n1"] [("n1", PrepOutcome.answered true)]
          [CommitOutcome.failed "engine down"]).result
        "c" "k" "v").2 = (⟨⟨[]⟩, cfgMaster, true, 1⟩ : ReplicatedStore).store) ∧
    ((ReplicatedStore.delete ⟨⟨[]⟩, cfgMaster, true, 1⟩
        (replicate2PC ["n1"] [("n1", PrepOutcome.answered true)]
          [CommitOutcome.failed "engine down"]).result
        "c" "k").1.isSome ∧
      (ReplicatedStore.delete ⟨⟨[]⟩, cfgMaster, true, 1⟩
        (replicate2PC ["n1"] [("n1", PrepOutcome.answered true)]
          [CommitOutcome.failed "engine down"]).result
        "c" "k").2 = (⟨⟨[]⟩, cfgMaster, true, 1⟩ : ReplicatedStore).store) ∧
    (∀ e, (ReplicatedStore.put ⟨⟨[]⟩, cfgMaster, true, 1⟩ (some e) "c" "k" "v").2 =
        (⟨⟨[]⟩, cfgMaster, true, 1⟩ : ReplicatedStore).store ∧
      (ReplicatedStore.delete ⟨⟨[]⟩, cfgMaster, true, 1⟩ (some e) "c" "k").2 =
        (⟨⟨[]⟩, cfgMaster, true, 1⟩ : ReplicatedStore).store)) :=
  ⟨⟨rfl, rfl, by decide, by decide, by decide, by decide⟩,
    commit_failure_no_local_apply ["n1"] [("n1", PrepOutcome.answered true)]
      [CommitOutcome.failed "engine down"] ⟨⟨[]⟩, cfgMaster, true, 1⟩
      "c" "k" "v" rfl rfl (by decide) (by decide) (by decide) (by decide)⟩

/-- C5: every Put or Delete on a replica-role node returns the role error
and leaves the local engine unchanged; the result is the same whatever the
replication outcome parameter is, i.e. the replication machinery is never
consulted. -/
theorem replica_rejects_writes (rs : ReplicatedStore) (repl : Option ReplicateError)
    (collection key value : String) (h : rs.cfg.role = RoleSlave) :
    rs.put repl collection key value =
      (some (StoreErr.roleError "writes not allowed on slave nodes, send request to master"),
        rs.store) ∧
    rs.delete repl collection key =
      (some (StoreErr.roleError "deletes not allowed on slave nodes, send request to master"),
        rs.store) := by
  have hs : rs.cfg.IsSlave = true := by
    simp [Config.IsSlave, h]
  exact ⟨by simp [ReplicatedStore.put, hs], by simp [ReplicatedStore.delete, hs]⟩

/-- Witness for C5 on a replica with a non-trivial engine and an ok
replication outcome: the write is still refused and nothing changes. -/
theorem replica_rejects_writes_witness :
    (⟨⟨[("c:k", "old")]⟩, cfgSlave, true, 2⟩ : ReplicatedStore).cfg.role = RoleSlave ∧
    (ReplicatedStore.put ⟨⟨[("c:k", "old")]⟩, cfgSlave, true, 2⟩ none "c" "k" "v" =
      (some (StoreErr.roleError "writes not allowed on slave nodes, send request to master"),
        ⟨[("c:k", "old")]⟩) ∧
    ReplicatedStore.delete ⟨⟨[("c:k", "old")]⟩, cfgSlave, true, 2⟩ none "c" "k" =
      (some (StoreErr.roleError "deletes not allowed on slave nodes, send request to master"),
        ⟨[("c:k", "old")]⟩)) :=
  ⟨rfl, replica_rejects_writes ⟨⟨[("c:k", "old")]⟩, cfgSlave, true, 2⟩ none "c" "k" "v" rfl⟩

/-- C6 counterexample: deleting the absent empty key on a master returns
InvalidKey, not NotFound, although the key is absent from the engine. -/
theorem delete_absent_key_cex :
    (ReplicatedStore.delete ⟨⟨[]⟩, cfgMaster, true, 2⟩ none "default" "").1 =
      some StoreErr.invalidKey ∧
    StoreErr.invalidKey ≠ StoreErr.keyNotFound ∧
    alookup (makeKey "default" "") ([] : List (String × String)) = none := by
  decide

/-- C6 (amended): for every Delete on the master of a non-empty key absent
from the local engine, the facade returns NotFound with the engine
unchanged, whatever the replication outcome parameter is — so no
replication is started; an empty key yields InvalidKey instead. -/
theorem delete_absent_key_not_found (rs : ReplicatedStore) (repl : Option ReplicateError)
    (collection key : String)
    (hrole : rs.cfg.role = RoleMaster)
    (hkey : key ≠ "")
    (habsent : alookup (makeKey collection key) rs.store.db = none) :
    rs.delete repl collection key = (some StoreErr.keyNotFound, rs.store) := by
  have hs : rs.cfg.IsSlave = false := by
    simp [Config.IsSlave, hrole, RoleMaster, RoleSlave]
  simp [ReplicatedStore.delete, hs, LevelDBStore.get, hkey, habsent]

/-- Witness for the amended C6: deleting the absent key `"b"` on a master
holding only `"a"`. -/
theorem delete_absent_key_not_found_witness :
    (⟨⟨[("default:a", "v")]⟩, cfgMaster, true, 1⟩ : ReplicatedStore).cfg.role = RoleMaster ∧
    "b" ≠ "" ∧
    alookup (makeKey "default" "b") [("default:a", "v")] = none ∧
    ReplicatedStore.delete ⟨⟨[("default:a", "v")]⟩, cfgMaster, true, 1⟩ none "default" "b" =
      (some StoreErr.keyNotFound, ⟨[("default:a", "v")]⟩) :=
  ⟨rfl, by decide, by decide,
    delete_absent_key_not_found ⟨⟨[("default:a", "v")]⟩, cfgMaster, true, 1⟩ none
      "default" "b" rfl (by decide) (by decide)⟩

/-- C8 counterexample: the `uint64` sequence counter wraps, so the values
handed out are not pairwise distinct across arbitrary call sequences: the
`2^64 + 1`-st `nextSeq` call hands out the same number as the first call. -/
theorem nextSeq_wraparound_cex :
    (managerAfter ⟨[], 0, 0⟩ (U64 + 1)).seq = (managerAfter ⟨[], 0, 0⟩ 1).seq ∧
    (U64 + 1 : Nat) ≠ 1 := by
  constructor
  · rw [managerAfter_seq, managerAfter_seq, Nat.add_mod_left]
  · have := U64_pos
    omega

/-- C8 (amended): the sequence numbers handed out by successive `nextSeq`
calls on one coordinator are strictly increasing in call order as long as
fewer than `2^64` numbers have been issued; the `uint64` counter wraps
after that. -/
theorem seqIssued_strictly_increasing (c : List String) (t i j : Nat)
    (hij : i < j) (hj : j < U64) :
    (managerAfter ⟨c, 0, t⟩ i).seq < (managerAfter ⟨c, 0, t⟩ j).seq := by
  rw [managerAfter_seq, managerAfter_seq,
    Nat.mod_eq_of_lt (lt_trans hij hj), Nat.mod_eq_of_lt hj]
  exact hij

/-- Witness for the amended C8: the first call hands out a smaller number
than the second. -/
theorem seqIssued_strictly_increasing_witness :
    (1 : Nat) < 2 ∧ (2 : Nat) < U64 ∧
    (managerAfter ⟨[], 0, 0⟩ 1).seq < (managerAfter ⟨[], 0, 0⟩ 2).seq :=
  ⟨by decide, by norm_num [U64],
    seqIssued_strictly_increasing [] 0 1 2 (by decide) (by norm_num [U64])⟩
